import Mathlib

/-
Verification of the irmago requestor-permission engine, configuration
initialization, and session log entry builder/codec, as a shallow
embedding of the Go source (irmaserver config.go and irmago logs.go).

Go maps are modelled as association lists with a first-match lookup and a
cons-to-front insert, which matches Go map semantics up to iteration
order (all statements below are lookup-level, never order-sensitive,
except where the source iterates a slice, which is ordered in Go too).
-/

set_option maxHeartbeats 1000000

/-- irma.Action is a string-typed session action tag (irmago messages.go,
outside src). Modelled from the spec: the action kinds are disclosing,
signing, issuing, plus the removal log kind declared in logs.go. -/
abbrev IrmaAction := String

/-- irma.ActionDisclosing -/
def ActionDisclosing : IrmaAction := "disclosing"

/-- irma.ActionSigning -/
def ActionSigning : IrmaAction := "signing"

/-- irma.ActionIssuing -/
def ActionIssuing : IrmaAction := "issuing"

/-- logs.go: `const actionRemoval = Action("removal")` -/
def actionRemoval : IrmaAction := "removal"

/-- Go map lookup on an association list: first binding wins.  With the
cons-to-front insert `alistPut` below this gives last-write-wins, i.e.
Go map semantics up to iteration order. -/
def alistGet {κ α : Type} [DecidableEq κ] : List (κ × α) → κ → Option α
  | [], _ => none
  | (k, v) :: rest, q => if k = q then some v else alistGet rest q

/-- Go map assignment `m[k] = v`: the new binding shadows any older one. -/
def alistPut {κ α : Type} (k : κ) (v : α) (m : List (κ × α)) : List (κ × α) :=
  (k, v) :: m

theorem alistGet_put_same {κ α : Type} [DecidableEq κ] (k : κ) (v : α)
    (m : List (κ × α)) : alistGet (alistPut k v m) k = some v := by
  simp [alistGet, alistPut]

theorem alistGet_put_other {κ α : Type} [DecidableEq κ] (k q : κ) (v : α)
    (m : List (κ × α)) (h : k ≠ q) : alistGet (alistPut k v m) q = alistGet m q := by
  simp [alistGet, alistPut, h]

/-- Modelled from the spec (§3): a credential type identifier is a
dot-structured name `root.issuer.credtype`; the irmago identifier types
(identifiers.go) are outside src.  The string form of each level is the
string form of the parent plus one segment. -/
structure CredentialTypeID where
  rootSeg : String
  issuerSeg : String
  nameSeg : String
deriving DecidableEq

/-- `id.Root()`: the scheme-root string form. -/
def CredentialTypeID.root (c : CredentialTypeID) : String := c.rootSeg

/-- `id.IssuerIdentifier().String()`: the issuer string form. -/
def CredentialTypeID.issuerStr (c : CredentialTypeID) : String :=
  c.rootSeg ++ "." ++ c.issuerSeg

/-- `id.String()`: the full credential-type string form. -/
def CredentialTypeID.str (c : CredentialTypeID) : String :=
  c.rootSeg ++ "." ++ c.issuerSeg ++ "." ++ c.nameSeg

/-- Modelled from the spec (§3): an attribute identifier is a credential
type identifier plus one attribute segment. -/
structure AttributeTypeID where
  credTypeId : CredentialTypeID
  attrSeg : String
deriving DecidableEq

/-- `attr.Root()` -/
def AttributeTypeID.root (a : AttributeTypeID) : String := a.credTypeId.rootSeg

/-- `attr.CredentialTypeIdentifier().IssuerIdentifier().String()` -/
def AttributeTypeID.issuerStr (a : AttributeTypeID) : String := a.credTypeId.issuerStr

/-- `attr.CredentialTypeIdentifier().String()` -/
def AttributeTypeID.credTypeStr (a : AttributeTypeID) : String := a.credTypeId.str

/-- `attr.String()` -/
def AttributeTypeID.str (a : AttributeTypeID) : String :=
  a.credTypeId.str ++ "." ++ a.attrSeg

/-- config.go: Permissions specify which attributes or credentials a
requestor may verify or issue. -/
structure Permissions where
  disclosing : List String
  signing : List String
  issuing : List String
deriving DecidableEq

/-- config.go: per-requestor permission and authentication configuration. -/
structure Requestor where
  permissions : Permissions
  authenticationMethod : String
  authenticationKey : String
deriving DecidableEq

/-- config.go Configuration (irmaserver package).  The transport fields
(RequestorsString, GlobalPermissionsString, the parsed jwtPrivateKey) are
config-loading/IO mechanics outside the embedded decision logic. -/
structure ServerConfiguration where
  disableRequestorAuthentication : Bool
  port : Int
  requestors : List (String × Requestor)
  globalPermissions : Permissions
  jwtIssuer : String
  jwtPrivateKey : String
deriving DecidableEq

/-- The Go zero value of Requestor, produced by `conf.Requestors[requestor]`
when the requestor is absent from the map (nil slices, empty strings). -/
def zeroRequestor : Requestor :=
  { permissions := { disclosing := [], signing := [], issuing := [] }
    authenticationMethod := ""
    authenticationKey := "" }

/-- `conf.Requestors[requestor]`: Go map indexing with zero-value default. -/
def getRequestor (conf : ServerConfiguration) (name : String) : Requestor :=
  (alistGet conf.requestors name).getD zeroRequestor

/-- config.go `contains`: true iff query equals an element of the list. -/
def contains : List String → String → Bool
  | [], _ => false
  | s :: rest, q => if s = q then true else contains rest q

theorem contains_iff_mem (l : List String) (q : String) :
    contains l q = true ↔ q ∈ l := by
  induction l with
  | nil => simp [contains]
  | cons s rest ih =>
    by_cases h : s = q
    · subst h; simp [contains]
    · have h2 : q ≠ s := fun hq => h hq.symm
      simp [contains, h, h2, ih]

/-- irma.CredentialRequest (requests.go, outside src): only the credential
type id is consulted by CanIssue. -/
structure CredentialRequest where
  credentialTypeID : CredentialTypeID
deriving DecidableEq

/-- The per-credential match condition of config.go CanIssue (lines 66-69):
the permission list contains the universal wildcard, the scheme-root
wildcard, the issuer wildcard, or the exact credential type string. -/
def credPermitted (permissions : List String) (id : CredentialTypeID) : Bool :=
  contains permissions "*" ||
    contains permissions (id.root ++ ".*") ||
    contains permissions (id.issuerStr ++ ".*") ||
    contains permissions id.str

/-- The credential loop of config.go CanIssue (lines 64-74): first
non-matching credential type returns (false, its string), else (true, ""). -/
def canIssueLoop (permissions : List String) : List CredentialRequest → Bool × String
  | [] => (true, "")
  | cred :: rest =>
    if credPermitted permissions cred.credentialTypeID then
      canIssueLoop permissions rest
    else
      (false, cred.credentialTypeID.str)

/-- config.go Configuration.CanIssue (lines 58-77). -/
def canIssue (conf : ServerConfiguration) (requestor : String)
    (creds : List CredentialRequest) : Bool × String :=
  let permissions :=
    (getRequestor conf requestor).permissions.issuing ++ conf.globalPermissions.issuing
  if permissions.length = 0 then (false, "")
  else canIssueLoop permissions creds

/-- The per-attribute match condition of config.go CanVerifyOrSign
(lines 97-101): as for credentials, plus the credential-type wildcard. -/
def attrPermitted (permissions : List String) (attr : AttributeTypeID) : Bool :=
  contains permissions "*" ||
    contains permissions (attr.root ++ ".*") ||
    contains permissions (attr.issuerStr ++ ".*") ||
    contains permissions (attr.credTypeStr ++ ".*") ||
    contains permissions attr.str

/-- irma.AttributeDisjunction (outside src): a label plus attribute
alternatives. -/
structure AttributeDisjunction where
  label : String
  attributes : List AttributeTypeID
deriving DecidableEq

/-- Inner attribute loop of config.go CanVerifyOrSign (lines 96-106):
string of the first non-matching attribute, if any. -/
def cvsAttrs (permissions : List String) : List AttributeTypeID → Option String
  | [] => none
  | a :: rest =>
    if attrPermitted permissions a then cvsAttrs permissions rest
    else some a.str

/-- Outer disjunction loop of config.go CanVerifyOrSign (lines 95-107). -/
def cvsDisjunctions (permissions : List String) :
    List AttributeDisjunction → Bool × String
  | [] => (true, "")
  | d :: rest =>
    match cvsAttrs permissions d.attributes with
    | some bad => (false, bad)
    | none => cvsDisjunctions permissions rest

/-- config.go Configuration.CanVerifyOrSign (lines 81-110).  The Go switch
on the action has no default case, leaving the permission list nil for any
other action. -/
def canVerifyOrSign (conf : ServerConfiguration) (requestor : String)
    (action : IrmaAction) (disjunctions : List AttributeDisjunction) : Bool × String :=
  let permissions :=
    if action = ActionDisclosing then
      (getRequestor conf requestor).permissions.disclosing ++ conf.globalPermissions.disclosing
    else if action = ActionIssuing then
      (getRequestor conf requestor).permissions.disclosing ++ conf.globalPermissions.disclosing
    else if action = ActionSigning then
      (getRequestor conf requestor).permissions.signing ++ conf.globalPermissions.signing
    else []
  if permissions.length = 0 then (false, "")
  else cvsDisjunctions permissions disjunctions

/-- Specification-side restatement of the decision procedure of claim C1:
empty combined list denies unconditionally; otherwise the first requested
credential type failing the four-way match is reported. -/
def canIssueSpec (conf : ServerConfiguration) (requestor : String)
    (creds : List CredentialRequest) : Bool × String :=
  let permissions :=
    (getRequestor conf requestor).permissions.issuing ++ conf.globalPermissions.issuing
  if permissions = [] then (false, "")
  else
    match creds.find? (fun c => ! credPermitted permissions c.credentialTypeID) with
    | some c => (false, c.credentialTypeID.str)
    | none => (true, "")

/-- All attribute alternatives of all disjunctions, in walking order. -/
def allAttributes : List AttributeDisjunction → List AttributeTypeID
  | [] => []
  | d :: rest => d.attributes ++ allAttributes rest

/-- Specification-side restatement of the decision procedure of claim C2:
permission list selected by action, empty list denies, first non-matching
attribute alternative (in disjunction order) is reported. -/
def canVerifyOrSignSpec (conf : ServerConfiguration) (requestor : String)
    (action : IrmaAction) (disjunctions : List AttributeDisjunction) : Bool × String :=
  let permissions :=
    if action = ActionDisclosing || action = ActionIssuing then
      (getRequestor conf requestor).permissions.disclosing ++ conf.globalPermissions.disclosing
    else if action = ActionSigning then
      (getRequestor conf requestor).permissions.signing ++ conf.globalPermissions.signing
    else []
  if permissions = [] then (false, "")
  else
    match (allAttributes disjunctions).find? (fun a => ! attrPermitted permissions a) with
    | some a => (false, a.str)
    | none => (true, "")

theorem canIssueLoop_eq_find (permissions : List String)
    (creds : List CredentialRequest) :
    canIssueLoop permissions creds =
      match creds.find? (fun c => ! credPermitted permissions c.credentialTypeID) with
      | some c => (false, c.credentialTypeID.str)
      | none => (true, "") := by
  induction creds with
  | nil => rfl
  | cons c rest ih =>
    by_cases h : credPermitted permissions c.credentialTypeID
    · simp [canIssueLoop, h, List.find?, ih]
    · simp [canIssueLoop, h, List.find?]

theorem cvsAttrs_eq_find (permissions : List String) (attrs : List AttributeTypeID) :
    cvsAttrs permissions attrs =
      Option.map AttributeTypeID.str
        (attrs.find? (fun a => ! attrPermitted permissions a)) := by
  induction attrs with
  | nil => rfl
  | cons a rest ih =>
    by_cases h : attrPermitted permissions a
    · simp [cvsAttrs, h, List.find?, ih]
    · simp [cvsAttrs, h, List.find?]

theorem find?_append {α : Type} (p : α → Bool) (l m : List α) :
    (l ++ m).find? p = ((l.find? p).orElse (fun _ => m.find? p)) := by
  induction l with
  | nil => simp
  | cons a rest ih =>
    by_cases h : p a
    · simp [List.find?, h]
    · simp [List.find?, h, ih]

theorem cvsDisjunctions_eq_find (permissions : List String)
    (disjunctions : List AttributeDisjunction) :
    cvsDisjunctions permissions disjunctions =
      match (allAttributes disjunctions).find? (fun a => ! attrPermitted permissions a) with
      | some a => (false, a.str)
      | none => (true, "") := by
  induction disjunctions with
  | nil => rfl
  | cons d rest ih =>
    have h := cvsAttrs_eq_find permissions d.attributes
    cases hf : d.attributes.find? (fun a => ! attrPermitted permissions a) with
    | none =>
      simp only [allAttributes, find?_append, hf, Option.orElse]
      simpa [cvsDisjunctions, h, hf] using ih
    | some a =>
      simp only [allAttributes, find?_append, hf, Option.orElse]
      simp [cvsDisjunctions, h, hf]

theorem length_eq_zero_iff_nil {α : Type} (l : List α) : l.length = 0 ↔ l = [] := by
  cases l <;> simp

/-- C1: CanIssue implements exactly the claimed decision procedure: the
combined permission list is the per-requestor Issuing list concatenated with
the global Issuing list; an empty combined list denies unconditionally
with (false, ""); otherwise the first requested credential type whose
string id is not matched (the list containing "*", root ++ ".*",
issuer ++ ".*", or the exact id string, and nothing else) is returned as
(false, idString), skipping later ones, and (true, "") is returned only
when every requested credential type matches. -/
theorem canIssue_decision_procedure (conf : ServerConfiguration)
    (requestor : String) (creds : List CredentialRequest) :
    canIssue conf requestor creds = canIssueSpec conf requestor creds ∧
    ∀ (permissions : List String) (id : CredentialTypeID),
      (credPermitted permissions id = true ↔
        ("*" ∈ permissions ∨ (id.root ++ ".*") ∈ permissions ∨
          (id.issuerStr ++ ".*") ∈ permissions ∨ id.str ∈ permissions)) := by
  constructor
  · unfold canIssue canIssueSpec
    simp only [length_eq_zero_iff_nil]
    by_cases h :
        (getRequestor conf requestor).permissions.issuing ++
          conf.globalPermissions.issuing = []
    · simp [h]
    · simp [h, canIssueLoop_eq_find]
  · intro permissions id
    simp [credPermitted, contains_iff_mem, Bool.or_eq_true, or_assoc]

/-- C1 witness: the decision-procedure equality evaluated at a concrete
configuration and credential list. -/
theorem canIssue_decision_procedure_witness :
    canIssue
      { disableRequestorAuthentication := false, port := 8088,
        requestors := [("acme",
          { permissions := { disclosing := [], signing := [], issuing := ["irma-demo.*"] },
            authenticationMethod := "token", authenticationKey := "k" })],
        globalPermissions := { disclosing := [], signing := [], issuing := [] },
        jwtIssuer := "", jwtPrivateKey := "" }
      "acme"
      [{ credentialTypeID := { rootSeg := "irma-demo", issuerSeg := "RU", nameSeg := "studentCard" } },
        { credentialTypeID := { rootSeg := "test", issuerSeg := "test", nameSeg := "mijnirma" } }] =
    canIssueSpec
      { disableRequestorAuthentication := false, port := 8088,
        requestors := [("acme",
          { permissions := { disclosing := [], signing := [], issuing := ["irma-demo.*"] },
            authenticationMethod := "token", authenticationKey := "k" })],
        globalPermissions := { disclosing := [], signing := [], issuing := [] },
        jwtIssuer := "", jwtPrivateKey := "" }
      "acme"
      [{ credentialTypeID := { rootSeg := "irma-demo", issuerSeg := "RU", nameSeg := "studentCard" } },
        { credentialTypeID := { rootSeg := "test", issuerSeg := "test", nameSeg := "mijnirma" } }] :=
  (canIssue_decision_procedure _ _ _).1

/-- C2: CanVerifyOrSign implements exactly the claimed decision procedure:
the permission list is selected by action (Disclosing lists for both the
disclosing and the issuing action, Signing lists for signing), an empty
combined list denies with (false, ""), and otherwise the first attribute
alternative (walking the alternatives of every disjunction in order) failing
the five-way match is returned as (false, attrString); (true, "") is
returned only when every listed alternative matches. -/
theorem canVerifyOrSign_decision_procedure (conf : ServerConfiguration)
    (requestor : String) (action : IrmaAction)
    (disjunctions : List AttributeDisjunction) :
    canVerifyOrSign conf requestor action disjunctions =
      canVerifyOrSignSpec conf requestor action disjunctions ∧
    ∀ (permissions : List String) (attr : AttributeTypeID),
      (attrPermitted permissions attr = true ↔
        ("*" ∈ permissions ∨ (attr.root ++ ".*") ∈ permissions ∨
          (attr.issuerStr ++ ".*") ∈ permissions ∨
          (attr.credTypeStr ++ ".*") ∈ permissions ∨ attr.str ∈ permissions)) := by
  constructor
  · unfold canVerifyOrSign canVerifyOrSignSpec
    by_cases h1 : action = ActionDisclosing
    · simp only [length_eq_zero_iff_nil]
      by_cases h :
          (getRequestor conf requestor).permissions.disclosing ++
            conf.globalPermissions.disclosing = []
      · simp [h1, h]
      · simp [h1, h, cvsDisjunctions_eq_find]
    · by_cases h2 : action = ActionIssuing
      · simp only [length_eq_zero_iff_nil]
        by_cases h :
            (getRequestor conf requestor).permissions.disclosing ++
              conf.globalPermissions.disclosing = []
        · simp [h1, h2, h]
        · simp [h1, h2, h, cvsDisjunctions_eq_find]
      · by_cases h3 : action = ActionSigning
        · have f1 : ActionSigning ≠ ActionDisclosing := by decide
          have f2 : ActionSigning ≠ ActionIssuing := by decide
          subst h3
          simp only [length_eq_zero_iff_nil]
          by_cases h :
              (getRequestor conf requestor).permissions.signing ++
                conf.globalPermissions.signing = []
          · simp [f1, f2, h]
          · simp [f1, f2, h, cvsDisjunctions_eq_find]
        · simp [h1, h2, h3]
  · intro permissions attr
    simp [attrPermitted, contains_iff_mem, Bool.or_eq_true, or_assoc]

/-- C2 witness: the decision-procedure equality evaluated at a concrete
configuration where a permitted first disjunction is followed by a denied
second one. -/
theorem canVerifyOrSign_decision_procedure_witness :
    canVerifyOrSign
      { disableRequestorAuthentication := false, port := 8088,
        requestors := [("acme",
          { permissions :=
              { disclosing := ["irma-demo.RU.studentCard.*"], signing := [], issuing := [] },
            authenticationMethod := "token", authenticationKey := "k" })],
        globalPermissions := { disclosing := [], signing := [], issuing := [] },
        jwtIssuer := "", jwtPrivateKey := "" }
      "acme" ActionDisclosing
      [{ label := "a",
         attributes := [{ credTypeId := { rootSeg := "irma-demo", issuerSeg := "RU", nameSeg := "studentCard" }, attrSeg := "studentID" }] },
       { label := "b",
         attributes := [{ credTypeId := { rootSeg := "irma-demo", issuerSeg := "MijnOverheid", nameSeg := "root" }, attrSeg := "BSN" }] }] =
    canVerifyOrSignSpec
      { disableRequestorAuthentication := false, port := 8088,
        requestors := [("acme",
          { permissions :=
              { disclosing := ["irma-demo.RU.studentCard.*"], signing := [], issuing := [] },
            authenticationMethod := "token", authenticationKey := "k" })],
        globalPermissions := { disclosing := [], signing := [], issuing := [] },
        jwtIssuer := "", jwtPrivateKey := "" }
      "acme" ActionDisclosing
      [{ label := "a",
         attributes := [{ credTypeId := { rootSeg := "irma-demo", issuerSeg := "RU", nameSeg := "studentCard" }, attrSeg := "studentID" }] },
       { label := "b",
         attributes := [{ credTypeId := { rootSeg := "irma-demo", issuerSeg := "MijnOverheid", nameSeg := "root" }, attrSeg := "BSN" }] }] :=
  (canVerifyOrSign_decision_procedure _ _ _ _).1

/-- C9: calling CanVerifyOrSign with an action other than disclosing,
issuing, or signing selects no permission list (the Go switch has no
default case), so the empty-list branch denies with (false, "") regardless
of any configured permissions. -/
theorem canVerifyOrSign_unknown_action (conf : ServerConfiguration)
    (requestor : String) (action : IrmaAction)
    (disjunctions : List AttributeDisjunction)
    (h1 : action ≠ ActionDisclosing) (h2 : action ≠ ActionIssuing)
    (h3 : action ≠ ActionSigning) :
    canVerifyOrSign conf requestor action disjunctions = (false, "") := by
  simp [canVerifyOrSign, h1, h2, h3]

/-- C9 witness: the removal action is denied even under universal
permissions. -/
theorem canVerifyOrSign_unknown_action_witness :
    actionRemoval ≠ ActionDisclosing ∧ actionRemoval ≠ ActionIssuing ∧
    actionRemoval ≠ ActionSigning ∧
    canVerifyOrSign
      { disableRequestorAuthentication := false, port := 8088,
        requestors := [("acme",
          { permissions := { disclosing := ["*"], signing := ["*"], issuing := ["*"] },
            authenticationMethod := "token", authenticationKey := "k" })],
        globalPermissions := { disclosing := ["*"], signing := ["*"], issuing := ["*"] },
        jwtIssuer := "", jwtPrivateKey := "" }
      "acme" actionRemoval
      [{ label := "a",
         attributes := [{ credTypeId := { rootSeg := "irma-demo", issuerSeg := "RU", nameSeg := "studentCard" }, attrSeg := "studentID" }] }] =
      (false, "") :=
  ⟨by decide, by decide, by decide,
    canVerifyOrSign_unknown_action _ _ _ _ (by decide) (by decide) (by decide)⟩

/-- auth.go (outside src): the authentication method tag is a string.
Modelled from the spec (§6): exact spelling is a collaborator concern;
only a stable tag-to-strategy mapping is required. -/
abbrev AuthenticationMethod := String

/-- AuthenticationMethodNone -/
def AuthenticationMethodNone : AuthenticationMethod := "none"

/-- AuthenticationMethodPublicKey -/
def AuthenticationMethodPublicKey : AuthenticationMethod := "publickey"

/-- AuthenticationMethodToken -/
def AuthenticationMethodToken : AuthenticationMethod := "token"

/-- Authenticator strategy instances (auth.go, outside src).  Modelled from
the spec (§4.3): NilAuthenticator is stateless; the public-key and
preshared-key strategies hold per-requestor key-material maps. -/
inductive Authenticator
  | nilAuthenticator
  | publicKeyAuthenticator (publickeys : List (String × String))
  | presharedKeyAuthenticator (presharedkeys : List (String × String))
deriving DecidableEq

/-- Models Go fmt verb substitution as used by errors.Errorf: each "%s" in
the format string consumes one argument; when the arguments run out, Go
emits the literal text "%!s(MISSING)" in its place (fmt package,
documented missing-argument behaviour). -/
def goSprintfAux : List Char → List String → List Char
  | [], _ => []
  | '%' :: 's' :: rest, arg :: args => arg.data ++ goSprintfAux rest args
  | '%' :: 's' :: rest, [] => "%!s(MISSING)".data ++ goSprintfAux rest []
  | c :: rest, args => c :: goSprintfAux rest args

/-- errors.Errorf format expansion (string-substitution verbs only). -/
def goSprintf (f : String) (args : List String) : String :=
  String.mk (goSprintfAux f.data args)

/-- The requestor-initialization loop of config.go initialize
(lines 143-151): resolve the declared method of each requestor in the
registry, failing with the unsupported-authentication-type error when
absent (note the Errorf call passes no argument for its %s verb), else
run the Initialize of that strategy.  Go map iteration order is arbitrary;
the model fixes one order (the list order).  ainit stands for the
strategy Initialize methods (auth.go, outside src); Go mutates the
authenticator in place, modelled by updating the registry binding. -/
def initLoop (ainit : Authenticator → String → Requestor → Except String Authenticator) :
    List (AuthenticationMethod × Authenticator) → List (String × Requestor) →
      Except String (List (AuthenticationMethod × Authenticator))
  | reg, [] => Except.ok reg
  | reg, (name, r) :: rest =>
    match alistGet reg r.authenticationMethod with
    | none => Except.error (goSprintf "Requestor %s has unsupported authentication type" [])
    | some a =>
      match ainit a name r with
      | Except.error e => Except.error e
      | Except.ok a2 => initLoop ainit (alistPut r.authenticationMethod a2 reg) rest

/-- config.go Configuration.initialize (lines 112-154).  readPrivateKey
performs file IO (lines 156-176) and is passed in as its outcome; ainit
is the per-strategy Initialize (auth.go, outside src).  Returns the
updated configuration together with the package-global authenticators
registry that initialize assigns. -/
def initializeConfig (readKeyResult : Except String Unit)
    (ainit : Authenticator → String → Requestor → Except String Authenticator)
    (conf : ServerConfiguration) :
    Except String (ServerConfiguration × List (AuthenticationMethod × Authenticator)) :=
  match readKeyResult with
  | Except.error e => Except.error e
  | Except.ok _ =>
    if conf.disableRequestorAuthentication then
      let g0 := conf.globalPermissions
      let g1 := if g0.disclosing.length = 0 then { g0 with disclosing := ["*"] } else g0
      let g2 := if g1.signing.length = 0 then { g1 with signing := ["*"] } else g1
      let g3 := if g2.issuing.length = 0 then { g2 with issuing := ["*"] } else g2
      Except.ok ({ conf with globalPermissions := g3 },
        [(AuthenticationMethodNone, Authenticator.nilAuthenticator)])
    else
      match initLoop ainit
          [(AuthenticationMethodPublicKey, Authenticator.publicKeyAuthenticator []),
            (AuthenticationMethodToken, Authenticator.presharedKeyAuthenticator [])]
          conf.requestors with
      | Except.error e => Except.error e
      | Except.ok reg => Except.ok (conf, reg)

/-- C4: with requestor authentication disabled and all three global
permission lists empty, a successful initialize defaults every global
list to the single-element list ["*"], and the authenticator registry
holds exactly the None authenticator under the none method tag. -/
theorem initializeConfig_disabled_wildcards
    (ainit : Authenticator → String → Requestor → Except String Authenticator)
    (conf : ServerConfiguration)
    (hd : conf.disableRequestorAuthentication = true)
    (h1 : conf.globalPermissions.disclosing = [])
    (h2 : conf.globalPermissions.signing = [])
    (h3 : conf.globalPermissions.issuing = []) :
    initializeConfig (Except.ok ()) ainit conf =
      Except.ok ({ conf with globalPermissions :=
          { disclosing := ["*"], signing := ["*"], issuing := ["*"] } },
        [(AuthenticationMethodNone, Authenticator.nilAuthenticator)]) := by
  simp [initializeConfig, hd, h1, h2, h3]

/-- C4 witness: the disabled-authentication defaulting evaluated at a
concrete configuration with empty global lists. -/
theorem initializeConfig_disabled_wildcards_witness :
    initializeConfig (Except.ok ())
      (fun a _ _ => Except.ok a)
      { disableRequestorAuthentication := true, port := 8088, requestors := [],
        globalPermissions := { disclosing := [], signing := [], issuing := [] },
        jwtIssuer := "", jwtPrivateKey := "" } =
    Except.ok
      ({ disableRequestorAuthentication := true, port := 8088, requestors := [],
         globalPermissions := { disclosing := ["*"], signing := ["*"], issuing := ["*"] },
         jwtIssuer := "", jwtPrivateKey := "" },
       [(AuthenticationMethodNone, Authenticator.nilAuthenticator)]) :=
  initializeConfig_disabled_wildcards _ _ rfl rfl rfl rfl

/-- C5 (as the code behaves): in enabled-authentication mode, a requestor
declaring a method with no registered strategy makes initialize fail, but
the error message is the constant string
"Requestor %!s(MISSING) has unsupported authentication type" for every
requestor name: the Errorf format has a %s verb but the call passes no
argument, so the message cannot name the offending requestor. -/
theorem initializeConfig_unsupported_method_message
    (ainit : Authenticator → String → Requestor → Except String Authenticator)
    (conf : ServerConfiguration) (name : String) (r : Requestor)
    (rest : List (String × Requestor))
    (hd : conf.disableRequestorAuthentication = false)
    (hreq : conf.requestors = (name, r) :: rest)
    (hm1 : r.authenticationMethod ≠ AuthenticationMethodPublicKey)
    (hm2 : r.authenticationMethod ≠ AuthenticationMethodToken) :
    initializeConfig (Except.ok ()) ainit conf =
      Except.error "Requestor %!s(MISSING) has unsupported authentication type" := by
  have g1 : AuthenticationMethodPublicKey ≠ r.authenticationMethod :=
    fun h => hm1 h.symm
  have g2 : AuthenticationMethodToken ≠ r.authenticationMethod :=
    fun h => hm2 h.symm
  simp [initializeConfig, hd, hreq, initLoop, alistGet, g1, g2]
  rfl

/-- C5 witness: a concrete requestor "foo" with an unknown method yields
the constant missing-argument message, which does not contain "foo". -/
theorem initializeConfig_unsupported_method_message_witness :
    initializeConfig (Except.ok ())
      (fun a _ _ => Except.ok a)
      { disableRequestorAuthentication := false, port := 8088,
        requestors := [("foo",
          { permissions := { disclosing := [], signing := [], issuing := [] },
            authenticationMethod := "unknown", authenticationKey := "" })],
        globalPermissions := { disclosing := [], signing := [], issuing := [] },
        jwtIssuer := "", jwtPrivateKey := "" } =
      Except.error "Requestor %!s(MISSING) has unsupported authentication type" :=
  initializeConfig_unsupported_method_message _ _ "foo" _ [] rfl rfl
    (by decide) (by decide)

/-- irma.TranslatedString (outside src): a map from language tag to
translated text. -/
abbrev TranslatedString := List (String × String)

/-- irma.Timestamp (outside src): an abstract completion time; its JSON
codec round-trips and is not inspected by the embedded code. -/
abbrev Timestamp := Int

/-- irma.IssuerIdentifier (identifiers.go, outside src): wraps the issuer
string form; NewIssuerIdentifier(s).String() = s. -/
structure IssuerID where
  s : String
deriving DecidableEq

/-- irma.NewIssuerIdentifier -/
def NewIssuerIdentifier (s : String) : IssuerID := { s := s }

/-- irma.SessionInfo (outside src): the message that started the session,
with per-issuer key counters. -/
structure SessionInfo where
  jwt : String
  nonce : Int
  context : Int
  keys : List (IssuerID × Int)
deriving DecidableEq

/-- gabi.ProofD (outside src): a disclosure proof; ADisclosed is a Go map
from attribute index to the raw big-integer value of the attribute. -/
structure ProofD where
  aDisclosed : List (Nat × Int)
deriving DecidableEq

/-- gabi.Proof (outside src): the proof interface; createLogEntry only
distinguishes the *gabi.ProofD variant from every other variant. -/
inductive GProof
  | proofD (d : ProofD)
  | otherProof (tag : Nat)
deriving DecidableEq

/-- gabi.IssueCommitmentMessage (outside src): carries an embedded proof
list. -/
structure IssueCommitmentMessage where
  proofs : List GProof
deriving DecidableEq

/-- The dynamic Go value held in LogEntry.response (an interface{} field):
a gabi.ProofList value, a []*gabi.ProofD slice value (both non-pointer
slices), or a *gabi.IssueCommitmentMessage pointer.  These are the only
shapes logs.go stores there. -/
inductive GoValue
  | proofList (ps : List GProof)
  | proofDSlice (ps : List ProofD)
  | commitPtr (m : IssueCommitmentMessage)
deriving DecidableEq

/-- The JSON bytes of a response payload (json.RawMessage), modelled by
shape: an array of proof objects, or an issuance-commitment object. -/
inductive RawResponse
  | jsonProofs (ps : List GProof)
  | jsonCommit (m : IssueCommitmentMessage)
deriving DecidableEq

/-- logs.go LogEntry.  Credential-type map keys are modelled by their
string form.  `none` models a nil rawResponse / response. -/
structure LogEntry where
  type : IrmaAction
  time : Timestamp
  sessionInfo : Option SessionInfo
  disclosed : List (String × List (Nat × TranslatedString))
  received : List (String × List TranslatedString)
  removed : List (String × List TranslatedString)
  signedMessage : String
  signedMessageType : String
  response : Option GoValue
  rawResponse : Option RawResponse
deriving DecidableEq

/-- irmago logSessionInfo (outside src): the JSON form of SessionInfo with
issuer-key counters already normalized to string keys. -/
structure LogSessionInfo where
  jwt : String
  nonce : Int
  context : Int
  keys : List (String × Int)
deriving DecidableEq

/-- logs.go jsonLogEntry: the encoded envelope. -/
structure JsonLogEntry where
  type : IrmaAction
  time : Timestamp
  sessionInfo : Option LogSessionInfo
  disclosed : List (String × List (Nat × TranslatedString))
  received : List (String × List TranslatedString)
  removed : List (String × List TranslatedString)
  signedMessage : String
  signedMessageType : String
  response : Option RawResponse
deriving DecidableEq

/-- json.Marshal of a response value: a gabi.ProofList and a []*gabi.ProofD
marshal to the same array-of-proof-objects shape; a commitment pointer
marshals the commitment object. -/
def jsonMarshalValue : GoValue → RawResponse
  | GoValue.proofList ps => RawResponse.jsonProofs ps
  | GoValue.proofDSlice ps => RawResponse.jsonProofs (ps.map GProof.proofD)
  | GoValue.commitPtr m => RawResponse.jsonCommit m

/-- Models json.Unmarshal(data, v) from encoding/json: empty/nil data is
invalid JSON ("unexpected end of JSON input"); otherwise, if v is not a
pointer, Unmarshal refuses it with InvalidUnmarshalError (documented:
"If v is nil or not a pointer, Unmarshal returns an
InvalidUnmarshalError") — slice values such as gabi.ProofList and
[]*gabi.ProofD are not pointers; decoding into a commitment pointer
succeeds exactly when the bytes have the commitment shape. -/
def jsonUnmarshalGo : Option RawResponse → GoValue → Except String GoValue
  | none, _ => Except.error "unexpected end of JSON input"
  | some _, GoValue.proofList _ =>
    Except.error "json: Unmarshal(non-pointer gabi.ProofList)"
  | some _, GoValue.proofDSlice _ =>
    Except.error "json: Unmarshal(non-pointer []*gabi.ProofD)"
  | some (RawResponse.jsonCommit m), GoValue.commitPtr _ =>
    Except.ok (GoValue.commitPtr m)
  | some (RawResponse.jsonProofs _), GoValue.commitPtr _ =>
    Except.error "json: cannot unmarshal array into Go value of type gabi.IssueCommitmentMessage"

/-- logs.go LogEntry.MarshalJSON (lines 166-202), modelled down to the
jsonLogEntry envelope (the final json.Marshal of the envelope is the
identity at this abstraction level).  Returns the envelope together with
the possibly-updated entry (the method caches the serialized response in
entry.rawResponse when it was empty and a typed response is present). -/
def marshalJSON (entry : LogEntry) : JsonLogEntry × LogEntry :=
  let entry :=
    if entry.rawResponse.isNone && entry.response.isSome then
      { entry with rawResponse := Option.map jsonMarshalValue entry.response }
    else entry
  let si : Option LogSessionInfo :=
    Option.map
      (fun s =>
        { jwt := s.jwt, nonce := s.nonce, context := s.context,
          keys := s.keys.map (fun p => (p.1.s, p.2)) })
      entry.sessionInfo
  ({ type := entry.type, time := entry.time, sessionInfo := si,
     disclosed := entry.disclosed, received := entry.received,
     removed := entry.removed, signedMessage := entry.signedMessage,
     signedMessageType := entry.signedMessageType,
     response := entry.rawResponse },
   entry)

/-- logs.go LogEntry.UnmarshalJSON (lines 134-164), modelled from the
parsed jsonLogEntry envelope on: SessionInfo is rebuilt with keys wrapped
by NewIssuerIdentifier; the response bytes are stored undecoded; the
typed response stays nil.  Go dereferences temp.SessionInfo without a nil
check, which would panic on an envelope without session info; the model
reports that as an error value. -/
def unmarshalJSON (temp : JsonLogEntry) : Except String LogEntry :=
  match temp.sessionInfo with
  | none => Except.error "runtime panic: nil logSessionInfo"
  | some si =>
    Except.ok
      { type := temp.type, time := temp.time,
        sessionInfo := some
          { jwt := si.jwt, nonce := si.nonce, context := si.context,
            keys := si.keys.map (fun p => (NewIssuerIdentifier p.1, p.2)) },
        disclosed := temp.disclosed, received := temp.received,
        removed := temp.removed, signedMessage := temp.signedMessage,
        signedMessageType := temp.signedMessageType,
        response := none, rawResponse := temp.response }

/-- logs.go LogEntry.GetResponse (lines 97-118): when no typed response is
cached, decode the raw bytes into the shape implied by the action kind.
For signing/disclosing the code assigns the non-pointer slice value
[]*gabi.ProofD\x7b\x7d to entry.response and passes that value to
json.Unmarshal; for issuing it passes the pointer
&gabi.IssueCommitmentMessage\x7b\x7d. -/
def getResponse (entry : LogEntry) : Except String (Option GoValue) :=
  match entry.response with
  | some r => Except.ok (some r)
  | none =>
    if entry.type = actionRemoval then Except.ok none
    else if entry.type = ActionSigning || entry.type = ActionDisclosing then
      match jsonUnmarshalGo entry.rawResponse (GoValue.proofDSlice []) with
      | Except.error e => Except.error e
      | Except.ok v => Except.ok (some v)
    else if entry.type = ActionIssuing then
      match jsonUnmarshalGo entry.rawResponse (GoValue.commitPtr { proofs := [] }) with
      | Except.error e => Except.error e
      | Except.ok v => Except.ok (some v)
    else Except.error "Invalid log type"

/-- Big-endian base-256 digits of a natural number (big.Int.Bytes); the
first argument is recursion fuel (any fuel at least the value itself is
enough, digits being at most the value). -/
def byteChars : Nat → Nat → List Char
  | _, 0 => []
  | 0, _ => []
  | fuel + 1, n => byteChars fuel (n / 256) ++ [Char.ofNat (n % 256)]

/-- Go string(attr.Bytes()): the big-integer value of the attribute as a byte
string (big.Int.Bytes is the big-endian absolute value).  Bytes are
modelled as code points, which coincides with the raw Go byte string on
ASCII data. -/
def attrString (v : Int) : String :=
  String.mk (byteChars v.natAbs v.natAbs)

/-- logs.go line 85: TranslatedString\x7b"en": val, "nl": val\x7d. -/
def tstr (v : String) : TranslatedString := [("en", v), ("nl", v)]

/-- One iteration of the inner loop of logs.go lines 80-86. -/
def attrStep (acc : List (Nat × TranslatedString)) (p : Nat × Int) :
    List (Nat × TranslatedString) :=
  if p.1 = 1 then acc else alistPut p.1 (tstr (attrString p.2)) acc

/-- The inner loop of logs.go lines 80-86: every disclosed attribute index
except the reserved metadata index 1 is mapped to its decoded value. -/
def disclosedAttrs (d : ProofD) : List (Nat × TranslatedString) :=
  d.aDisclosed.foldl attrStep []

/-- irmago ConfigurationStore (outside src).  Modelled from the spec
(§4.4 step 3): MetadataFromInt(metadataAttribute, store) followed by
CredentialType().Identifier() decodes the metadata attribute to the
credential type identifier; the model carries that lookup as a function
from the raw metadata value to the identifier string. -/
structure ConfigurationStore where
  metaCredType : Int → String

/-- logs.go lines 77-78: decode proofd.ADisclosed[1] to the credential
type identifier (Go map indexing yields the zero value when index 1 is
absent). -/
def proofDCredType (store : ConfigurationStore) (d : ProofD) : String :=
  store.metaCredType ((alistGet d.aDisclosed 1).getD 0)

/-- One iteration of the proof-list walk of logs.go lines 72-88. -/
def disclosedStep (store : ConfigurationStore)
    (acc : List (String × List (Nat × TranslatedString))) (p : GProof) :
    List (String × List (Nat × TranslatedString)) :=
  match p with
  | GProof.proofD d => alistPut (proofDCredType store d) (disclosedAttrs d) acc
  | GProof.otherProof _ => acc

/-- logs.go lines 72-88: walk the proof list; every *gabi.ProofD resets
the Disclosed entry of this credential type and fills it from this proof;
other proof variants contribute nothing. -/
def buildDisclosed (store : ConfigurationStore) (ps : List GProof) :
    List (String × List (Nat × TranslatedString)) :=
  ps.foldl (disclosedStep store) []

/-- One credential request of the originating issuance request
(irma.CredentialRequest via IdentityProviderJwt, outside src).  Modelled
from the spec (§4.4 step 2): req.AttributeList(store) resolves the full
attribute list through the external credential-configuration lookup and
may fail; the model carries the resolution outcome — none for failure,
some (credentialTypeIdString, strings) for
list.CredentialType().Identifier() and list.Strings(). -/
structure CredentialRequestLog where
  attrList : Option (String × List TranslatedString)
deriving DecidableEq

/-- One iteration of the credential-request loop of logs.go lines 54-60. -/
def receivedStep (acc : List (String × List TranslatedString))
    (c : CredentialRequestLog) : List (String × List TranslatedString) :=
  match c.attrList with
  | none => acc
  | some (id, strs) => alistPut id strs acc

/-- logs.go lines 51-60: resolve the attribute list of each credential request,
skipping (continue) the ones that fail to resolve. -/
def buildReceived (creds : List CredentialRequestLog) :
    List (String × List TranslatedString) :=
  creds.foldl receivedStep []

/-- The session state consulted by createLogEntry: the action, the session
info, the message fields of the signed request (session.jwt as a
*SignatureRequestorJwt, outside src), the credential requests of the
issuance request (session.jwt as a *IdentityProviderJwt, outside src),
and the configuration store of the credential manager. -/
structure LogSession where
  action : IrmaAction
  info : Option SessionInfo
  sigMessage : String
  sigMessageType : String
  credentials : List CredentialRequestLog
  store : ConfigurationStore

/-- logs.go session.createLogEntry (lines 30-91).  time.Now() is passed in
as `now`.  The Go switch dispatches on the action: signing extracts the
signed message and falls through to disclosing, which requires the
response to be a gabi.ProofList; issuing resolves Received (resolution
failures skipped) and requires a *gabi.IssueCommitmentMessage, taking its
embedded proofs; any other action is an invalid log type.  The extracted
proof list then populates Disclosed. -/
def createLogEntry (s : LogSession) (response : Option GoValue) (now : Timestamp) :
    Except String LogEntry :=
  let base : LogEntry :=
    { type := s.action, time := now, sessionInfo := s.info,
      disclosed := [], received := [], removed := [],
      signedMessage := "", signedMessageType := "",
      response := response, rawResponse := none }
  if s.action = ActionSigning then
    match response with
    | some (GoValue.proofList ps) =>
      Except.ok { base with
        signedMessage := s.sigMessage, signedMessageType := s.sigMessageType,
        disclosed := buildDisclosed s.store ps }
    | _ => Except.error "Response was not a ProofList"
  else if s.action = ActionDisclosing then
    match response with
    | some (GoValue.proofList ps) =>
      Except.ok { base with disclosed := buildDisclosed s.store ps }
    | _ => Except.error "Response was not a ProofList"
  else if s.action = ActionIssuing then
    let received := buildReceived s.credentials
    match response with
    | some (GoValue.commitPtr m) =>
      Except.ok { base with
        received := received, disclosed := buildDisclosed s.store m.proofs }
    | _ => Except.error "Response was not a *IssueCommitmentMessage"
  else Except.error "Invalid log type"

/-- Double lookup into the Disclosed mapping: credential type, then
attribute index. -/
def lookup2 (dis : List (String × List (Nat × TranslatedString)))
    (id : String) (i : Nat) : Option TranslatedString :=
  (alistGet dis id).bind (fun inner => alistGet inner i)

/-- One step of scanning for the last disclosure proof of a credential
type. -/
def lastStep (store : ConfigurationStore) (id : String)
    (acc : Option ProofD) (p : GProof) : Option ProofD :=
  match p with
  | GProof.proofD d => if proofDCredType store d = id then some d else acc
  | GProof.otherProof _ => acc

/-- The last disclosure proof in the list whose decoded credential type is
`id` (later proofs overwrite earlier ones of the same type). -/
def findLastProofD (store : ConfigurationStore) (ps : List GProof) (id : String) :
    Option ProofD :=
  ps.foldl (lastStep store id) none

/-- A builder-produced disclosing session for exercising the codec. -/
def c3Session : LogSession :=
  { action := ActionDisclosing,
    info := some { jwt := "jwt", nonce := 11, context := 12, keys := [] },
    sigMessage := "", sigMessageType := "", credentials := [],
    store := { metaCredType := fun _ => "irma-demo.RU.studentCard" } }

/-- The response of the disclosing session: a proof list with one disclosure
proof. -/
def c3Response : Option GoValue :=
  some (GoValue.proofList [GProof.proofD { aDisclosed := [(1, 9), (2, 66)] }])

/-- C3 (the code as it behaves): a builder-produced disclosing LogEntry,
encoded and decoded, does NOT resolve back to the original response:
GetResponse assigns the non-pointer slice value []*gabi.ProofD to
entry.response and passes it to json.Unmarshal, which rejects any
non-pointer target with an InvalidUnmarshalError, so forcing resolution
returns that error instead of the original proof list (signing behaves
identically; only issuing decodes through a pointer). -/
theorem logEntry_roundtrip_getResponse_bug :
    ∃ e e2 : LogEntry,
      createLogEntry c3Session c3Response 0 = Except.ok e ∧
      unmarshalJSON (marshalJSON e).1 = Except.ok e2 ∧
      e2.type = e.type ∧ e2.disclosed = e.disclosed ∧
      e2.sessionInfo = e.sessionInfo ∧
      getResponse e2 = Except.error "json: Unmarshal(non-pointer []*gabi.ProofD)" :=
  ⟨_, _, rfl, rfl, rfl, rfl, rfl, rfl⟩

/-- C10: MarshalJSON mutates at most the rawResponse cache — it serializes
the typed response into rawResponse exactly when rawResponse is empty and
a typed response is present — and leaves every other field, including the
typed response, unchanged; when rawResponse is already non-empty the
entry is not changed at all. -/
theorem marshalJSON_frame (e : LogEntry) :
    ((marshalJSON e).2.type = e.type ∧ (marshalJSON e).2.time = e.time ∧
      (marshalJSON e).2.sessionInfo = e.sessionInfo ∧
      (marshalJSON e).2.disclosed = e.disclosed ∧
      (marshalJSON e).2.received = e.received ∧
      (marshalJSON e).2.removed = e.removed ∧
      (marshalJSON e).2.signedMessage = e.signedMessage ∧
      (marshalJSON e).2.signedMessageType = e.signedMessageType ∧
      (marshalJSON e).2.response = e.response) ∧
    ((marshalJSON e).2.rawResponse =
      if e.rawResponse.isNone && e.response.isSome then
        Option.map jsonMarshalValue e.response
      else e.rawResponse) ∧
    (e.rawResponse ≠ none → (marshalJSON e).2 = e) := by
  cases hr : e.rawResponse with
  | some raw => simp [marshalJSON, hr]
  | none =>
    cases ho : e.response with
    | some v => simp [marshalJSON, hr, ho]
    | none => simp [marshalJSON, hr, ho]

/-- C10 witness: an entry with a non-empty rawResponse is returned
entirely unchanged by MarshalJSON. -/
theorem marshalJSON_frame_witness :
    ({ type := ActionIssuing, time := 5, sessionInfo := none,
       disclosed := [], received := [], removed := [],
       signedMessage := "", signedMessageType := "",
       response := none,
       rawResponse := some (RawResponse.jsonCommit { proofs := [] }) } : LogEntry).rawResponse
        ≠ none ∧
    (marshalJSON
      { type := ActionIssuing, time := 5, sessionInfo := none,
        disclosed := [], received := [], removed := [],
        signedMessage := "", signedMessageType := "",
        response := none,
        rawResponse := some (RawResponse.jsonCommit { proofs := [] }) }).2 =
      { type := ActionIssuing, time := 5, sessionInfo := none,
        disclosed := [], received := [], removed := [],
        signedMessage := "", signedMessageType := "",
        response := none,
        rawResponse := some (RawResponse.jsonCommit { proofs := [] }) } :=
  ⟨fun h => Option.noConfusion h,
    (marshalJSON_frame _).2.2 (fun h => Option.noConfusion h)⟩

/-- The two accepted wire encodings of the issuer-key counters
(logSessionInfo JSON, outside src).  Modelled from the spec (§4.5/§6):
counters arrive keyed either by integer-coded legacy issuer identifiers
or by string-form identifiers. -/
inductive KeysWire
  | legacy (entries : List (Int × Int))
  | current (entries : List (String × Int))
deriving DecidableEq

/-- The wire form of logSessionInfo before key normalization. -/
structure LogSessionInfoWire where
  jwt : String
  nonce : Int
  context : Int
  keysWire : KeysWire
deriving DecidableEq

/-- Modelled from the spec: logSessionInfo decoding accepts issuer-key
counters in either wire encoding and normalizes both to string-keyed
counters; `table` translates a legacy integer code to the issuer
identifier string (the scheme-manager index, a collaborator concern). -/
def decodeSessionInfoWire (table : Int → String) (w : LogSessionInfoWire) :
    LogSessionInfo :=
  { jwt := w.jwt, nonce := w.nonce, context := w.context,
    keys :=
      match w.keysWire with
      | KeysWire.legacy es => es.map (fun p => (table p.1, p.2))
      | KeysWire.current es => es }

/-- C8: legacy integer-keyed and current string-keyed issuer-key counters
carrying equivalent data (the current keys being the identifier strings
of the legacy codes) decode to the same normalized logSessionInfo, hence
to the same in-memory LogEntry mapping after UnmarshalJSON; and
MarshalJSON always emits the counters keyed by the string form of the
issuer identifiers. -/
theorem issuerKeys_codec (table : Int → String) (es : List (Int × Int))
    (jwt : String) (nonce context : Int) (j : JsonLogEntry) :
    decodeSessionInfoWire table
        { jwt := jwt, nonce := nonce, context := context,
          keysWire := KeysWire.legacy es } =
      decodeSessionInfoWire table
        { jwt := jwt, nonce := nonce, context := context,
          keysWire := KeysWire.current (es.map (fun p => (table p.1, p.2))) } ∧
    unmarshalJSON { j with sessionInfo := some (decodeSessionInfoWire table
        { jwt := jwt, nonce := nonce, context := context,
          keysWire := KeysWire.legacy es }) } =
      unmarshalJSON { j with sessionInfo := some (decodeSessionInfoWire table
        { jwt := jwt, nonce := nonce, context := context,
          keysWire := KeysWire.current (es.map (fun p => (table p.1, p.2))) }) } ∧
    (∀ (e : LogEntry) (si : SessionInfo), e.sessionInfo = some si →
      Option.map LogSessionInfo.keys (marshalJSON e).1.sessionInfo =
        some (si.keys.map (fun p => (p.1.s, p.2)))) := by
  refine ⟨rfl, rfl, ?_⟩
  intro e si h
  by_cases hc : e.rawResponse.isNone && e.response.isSome
  · simp [marshalJSON, hc, h]
  · simp [marshalJSON, hc, h]

/-- A concrete session info with one issuer-key counter. -/
def c8Si : SessionInfo :=
  { jwt := "", nonce := 0, context := 0,
    keys := [(NewIssuerIdentifier "irma-demo.RU", 2)] }

/-- A concrete log entry holding c8Si. -/
def c8Entry : LogEntry :=
  { type := ActionDisclosing, time := 0, sessionInfo := some c8Si,
    disclosed := [], received := [], removed := [],
    signedMessage := "", signedMessageType := "",
    response := none, rawResponse := none }

/-- A concrete envelope for the decode-agreement part. -/
def c8Envelope : JsonLogEntry :=
  { type := ActionDisclosing, time := 0, sessionInfo := none,
    disclosed := [], received := [], removed := [],
    signedMessage := "", signedMessageType := "", response := none }

/-- C8 witness: the codec agreement evaluated at a concrete legacy table
and a concrete entry, whose emitted keys are the string forms. -/
theorem issuerKeys_codec_witness :
    c8Entry.sessionInfo = some c8Si ∧
    Option.map LogSessionInfo.keys (marshalJSON c8Entry).1.sessionInfo =
      some [("irma-demo.RU", 2)] :=
  ⟨rfl,
    (issuerKeys_codec (fun _ => "irma-demo.RU") [(3, 4)] "" 0 0 c8Envelope).2.2
      c8Entry c8Si rfl⟩

/-- Whether one credential request resolves to an attribute list for
credential type `id`. -/
def providesId (id : String) (c : CredentialRequestLog) : Bool :=
  match c.attrList with
  | none => false
  | some (i, _) => decide (i = id)

theorem providesId_iff (id : String) (c : CredentialRequestLog) :
    providesId id c = true ↔ ∃ strs, c.attrList = some (id, strs) := by
  cases hc : c.attrList with
  | none => simp [providesId, hc]
  | some pr =>
    obtain ⟨i, strs⟩ := pr
    by_cases hid : i = id
    · subst hid; simp [providesId, hc]
    · simp [providesId, hc, hid, fun h : id = i => hid h.symm]

theorem received_aux (id : String) (creds : List CredentialRequestLog) :
    ∀ acc, (alistGet (creds.foldl receivedStep acc) id).isSome =
      ((alistGet acc id).isSome || creds.any (providesId id)) := by
  induction creds with
  | nil => intro acc; simp
  | cons c rest ih =>
    intro acc
    simp only [List.foldl_cons, List.any_cons]
    rw [ih]
    cases hc : c.attrList with
    | none => simp [receivedStep, hc, providesId]
    | some pr =>
      obtain ⟨i, strs⟩ := pr
      by_cases hid : i = id
      · subst hid
        simp [receivedStep, hc, providesId, alistGet, alistPut]
      · simp [receivedStep, hc, providesId, hid, alistGet, alistPut,
          Bool.or_assoc]

theorem lookup_buildReceived (creds : List CredentialRequestLog) (id : String) :
    (alistGet (buildReceived creds) id).isSome = true ↔
      ∃ c ∈ creds, ∃ strs, c.attrList = some (id, strs) := by
  rw [buildReceived, received_aux]
  simp [alistGet, List.any_eq_true, providesId_iff]

theorem disclosed_foldl_last (store : ConfigurationStore) (id : String)
    (ps : List GProof) :
    ∀ (acc : List (String × List (Nat × TranslatedString))) (o : Option ProofD),
      alistGet acc id = Option.map disclosedAttrs o →
      alistGet (ps.foldl (disclosedStep store) acc) id =
        Option.map disclosedAttrs (ps.foldl (lastStep store id) o) := by
  induction ps with
  | nil => intro acc o h; simpa using h
  | cons p rest ih =>
    intro acc o h
    simp only [List.foldl_cons]
    apply ih
    cases p with
    | otherProof t => simpa [disclosedStep, lastStep] using h
    | proofD d =>
      by_cases hd : proofDCredType store d = id
      · simp [disclosedStep, lastStep, hd, alistGet, alistPut]
      · simpa [disclosedStep, lastStep, hd, alistGet, alistPut] using h

theorem lookup_buildDisclosed (store : ConfigurationStore) (ps : List GProof)
    (id : String) :
    alistGet (buildDisclosed store ps) id =
      Option.map disclosedAttrs (findLastProofD store ps id) :=
  disclosed_foldl_last store id ps [] none rfl

theorem attr_foldl_one (l : List (Nat × Int)) :
    ∀ acc, alistGet acc 1 = none → alistGet (l.foldl attrStep acc) 1 = none := by
  induction l with
  | nil => intro acc h; simpa using h
  | cons p rest ih =>
    intro acc h
    simp only [List.foldl_cons]
    apply ih
    by_cases h1 : p.1 = 1
    · simpa [attrStep, h1] using h
    · simpa [attrStep, h1, alistGet, alistPut] using h

theorem lookup_disclosedAttrs_one (d : ProofD) :
    alistGet (disclosedAttrs d) 1 = none :=
  attr_foldl_one d.aDisclosed [] rfl

theorem attr_foldl_notmem (i : Nat) (l : List (Nat × Int)) :
    ∀ acc, i ∉ l.map Prod.fst →
      alistGet (l.foldl attrStep acc) i = alistGet acc i := by
  induction l with
  | nil => intro acc _; rfl
  | cons p rest ih =>
    intro acc hn
    have hp : p.1 ≠ i := fun h => hn (by simp [h])
    have hr : i ∉ rest.map Prod.fst := fun h => hn (by simp [h])
    simp only [List.foldl_cons]
    rw [ih _ hr]
    by_cases h1 : p.1 = 1
    · simp [attrStep, h1]
    · simp [attrStep, h1, alistGet, alistPut, hp]

theorem attr_foldl_mem (i : Nat) (v : Int) (l : List (Nat × Int)) :
    ∀ acc, (l.map Prod.fst).Nodup → (i, v) ∈ l → i ≠ 1 →
      alistGet (l.foldl attrStep acc) i = some (tstr (attrString v)) := by
  induction l with
  | nil => intro acc _ hm _; cases hm
  | cons p rest ih =>
    intro acc hnd hm hne
    simp only [List.map_cons, List.nodup_cons] at hnd
    obtain ⟨hp, hrest⟩ := hnd
    rcases List.mem_cons.mp hm with heq | hmem
    · have h1 : p = (i, v) := heq.symm
      subst h1
      simp only [List.foldl_cons]
      rw [attr_foldl_notmem i rest _ (by simpa using hp)]
      simp [attrStep, hne, alistGet, alistPut]
    · simp only [List.foldl_cons]
      exact ih _ hrest hmem hne

/-- C6: createLogEntry fails exactly when the response shape mismatches
the declared action kind or the kind is unknown: for signing (after
extracting the signed message) and disclosing it errors iff the response
is not a gabi.ProofList; for issuing it errors iff the response is not a
*gabi.IssueCommitmentMessage; any other action kind is an invalid-log-type
error; and during issuance an attribute-list resolution failure is
non-fatal — construction succeeds for ANY credential-request resolution
outcomes, and Received contains a credential type exactly when some
request resolved to it, the failed ones being omitted. -/
theorem createLogEntry_error_conditions (s : LogSession) (r : Option GoValue)
    (now : Timestamp) :
    ((s.action = ActionSigning ∨ s.action = ActionDisclosing) →
      ((∃ e, createLogEntry s r now = Except.ok e) ↔
        ∃ ps, r = some (GoValue.proofList ps))) ∧
    (s.action = ActionIssuing →
      ((∃ e, createLogEntry s r now = Except.ok e) ↔
        ∃ m, r = some (GoValue.commitPtr m))) ∧
    (s.action ≠ ActionSigning → s.action ≠ ActionDisclosing →
      s.action ≠ ActionIssuing →
      createLogEntry s r now = Except.error "Invalid log type") ∧
    (s.action = ActionIssuing → ∀ m, r = some (GoValue.commitPtr m) →
      (createLogEntry s r now = Except.ok
        { type := ActionIssuing, time := now, sessionInfo := s.info,
          disclosed := buildDisclosed s.store m.proofs,
          received := buildReceived s.credentials, removed := [],
          signedMessage := "", signedMessageType := "",
          response := some (GoValue.commitPtr m), rawResponse := none } ∧
      ∀ id, (alistGet (buildReceived s.credentials) id).isSome = true ↔
        ∃ c ∈ s.credentials, ∃ strs, c.attrList = some (id, strs))) := by
  have dIS : ActionIssuing ≠ ActionSigning := by decide
  have dID : ActionIssuing ≠ ActionDisclosing := by decide
  have dDS : ActionDisclosing ≠ ActionSigning := by decide
  refine ⟨?_, ?_, ?_, ?_⟩
  · rintro (h | h)
    · cases r with
      | none => simp [createLogEntry, h]
      | some v => cases v <;> simp [createLogEntry, h]
    · cases r with
      | none => simp [createLogEntry, h, dDS]
      | some v => cases v <;> simp [createLogEntry, h, dDS]
  · intro h
    cases r with
    | none => simp [createLogEntry, h, dIS, dID]
    | some v => cases v <;> simp [createLogEntry, h, dIS, dID]
  · intro h1 h2 h3
    simp [createLogEntry, h1, h2, h3]
  · intro h m hr
    subst hr
    refine ⟨?_, ?_⟩
    · simp [createLogEntry, h, dIS, dID]
    · intro id
      exact lookup_buildReceived s.credentials id

/-- C6 witness: an unknown (removal) action kind is a hard construction
failure, evaluated at a concrete session. -/
theorem createLogEntry_error_conditions_witness :
    createLogEntry
      { action := actionRemoval, info := none, sigMessage := "",
        sigMessageType := "", credentials := [],
        store := { metaCredType := fun _ => "" } } none 0 =
      Except.error "Invalid log type" :=
  (createLogEntry_error_conditions _ none 0).2.2.1
    (by decide) (by decide) (by decide)

/-- A store decoding every metadata value to credential type "ct". -/
def c7CexStore : ConfigurationStore := { metaCredType := fun _ => "ct" }

/-- A disclosing session over c7CexStore. -/
def c7CexSession : LogSession :=
  { action := ActionDisclosing, info := none, sigMessage := "",
    sigMessageType := "", credentials := [], store := c7CexStore }

/-- Two disclosure proofs of the same credential type: the first discloses
index 0 (value 65, "A"), the second index 2 (value 66, "B"). -/
def c7CexProofs : List GProof :=
  [GProof.proofD { aDisclosed := [(1, 7), (0, 65)] },
    GProof.proofD { aDisclosed := [(1, 7), (2, 66)] }]

/-- C7 counterexample: with two disclosure proofs of the same decoded
credential type, the built entry does NOT map the non-metadata indices
of every disclosure proof — the assignment Disclosed[id] = \x7b...\x7d
for the second proof resets the map, so the disclosed attribute of the
first proof at index 0 (value "A") is absent from Disclosed while index
2 from the second proof survives, refuting the claim as stated. -/
theorem createLogEntry_overwrite_cex :
    (createLogEntry c7CexSession (some (GoValue.proofList c7CexProofs)) 0).map
        (fun e => (lookup2 e.disclosed "ct" 0, lookup2 e.disclosed "ct" 2)) =
      Except.ok (none, some [("en", "B"), ("nl", "B")]) := by
  rfl

/-- C7 (amended): for a disclosing session the builder succeeds on any
proof list, and the built Disclosed mapping satisfies: each credential
type id maps to exactly the attribute map of the LAST disclosure proof
decoding to that id (an earlier disclosure proof of the same credential
type is overwritten entirely by a later one); proof elements that are not
disclosure proofs contribute nothing; the reserved metadata index 1 never
appears as a key of any inner map; and within a disclosure proof (whose
disclosed indices are distinct, as Go map keys are) every index other
than 1 is mapped to its UTF-8 decoded value duplicated under the en and
nl language tags. -/
theorem createLogEntry_disclosed_amended (s : LogSession) (ps : List GProof)
    (now : Timestamp) (ha : s.action = ActionDisclosing) :
    createLogEntry s (some (GoValue.proofList ps)) now = Except.ok
      { type := ActionDisclosing, time := now, sessionInfo := s.info,
        disclosed := buildDisclosed s.store ps, received := [], removed := [],
        signedMessage := "", signedMessageType := "",
        response := some (GoValue.proofList ps), rawResponse := none } ∧
    (∀ id, alistGet (buildDisclosed s.store ps) id =
      Option.map disclosedAttrs (findLastProofD s.store ps id)) ∧
    (∀ id m, alistGet (buildDisclosed s.store ps) id = some m →
      alistGet m 1 = none) ∧
    (∀ d : ProofD, (d.aDisclosed.map Prod.fst).Nodup →
      ∀ i v, (i, v) ∈ d.aDisclosed → i ≠ 1 →
        alistGet (disclosedAttrs d) i = some (tstr (attrString v))) := by
  have hDS : ActionDisclosing ≠ ActionSigning := by decide
  refine ⟨?_, ?_, ?_, ?_⟩
  · simp [createLogEntry, ha, hDS]
  · intro id
    exact lookup_buildDisclosed s.store ps id
  · intro id m hm
    rw [lookup_buildDisclosed] at hm
    cases hl : findLastProofD s.store ps id with
    | none => rw [hl] at hm; cases hm
    | some d =>
      rw [hl] at hm
      have hme : disclosedAttrs d = m := by
        simpa using hm
      rw [← hme]
      exact lookup_disclosedAttrs_one d
  · intro d hnd i v hm hne
    exact attr_foldl_mem i v d.aDisclosed [] hnd hm hne

/-- The scenario store: metadata value 9 decodes to
irma-demo.RU.studentCard. -/
def c7Store : ConfigurationStore :=
  { metaCredType := fun v => if v = 9 then "irma-demo.RU.studentCard" else "x" }

/-- The scenario session. -/
def c7Session : LogSession :=
  { action := ActionDisclosing, info := none, sigMessage := "",
    sigMessageType := "", credentials := [], store := c7Store }

/-- The big-integer whose big-endian bytes spell "s1234567". -/
def s1234567Val : Int :=
  ((((((((115 : Int) * 256 + 49) * 256 + 50) * 256 + 51) * 256 + 52) * 256
    + 53) * 256 + 54) * 256 + 55)

/-- The scenario proof list: one disclosure proof with metadata at index 1
and a disclosed attribute at index 2 with raw bytes "s1234567". -/
def c7Proofs : List GProof :=
  [GProof.proofD { aDisclosed := [(1, 9), (2, s1234567Val)] }]

/-- C7 witness: the amended theorem applied at the concrete claimed
scenario, whose built entry satisfies
Disclosed["irma-demo.RU.studentCard"][2] = en/nl "s1234567". -/
theorem createLogEntry_disclosed_amended_witness :
    (c7Session.action = ActionDisclosing ∧
      createLogEntry c7Session (some (GoValue.proofList c7Proofs)) 0 = Except.ok
        { type := ActionDisclosing, time := 0, sessionInfo := none,
          disclosed := buildDisclosed c7Store c7Proofs, received := [],
          removed := [], signedMessage := "", signedMessageType := "",
          response := some (GoValue.proofList c7Proofs), rawResponse := none }) ∧
    lookup2 (buildDisclosed c7Store c7Proofs) "irma-demo.RU.studentCard" 2 =
      some [("en", "s1234567"), ("nl", "s1234567")] :=
  ⟨⟨rfl, (createLogEntry_disclosed_amended c7Session c7Proofs 0 rfl).1⟩, by rfl⟩
